import Mathlib

/-!
Verification of the OpenAuto logger-migration scripts.

The repository consists of regex-driven text-rewriting scripts:
  - migrate_logger.py        : rewrites OPENAUTO_LOG(sev) << msg;  to  LOG_*(CAT, "msg");
  - scripts/migrate_to_modern_logger.py : a variant emitting OPENAUTO_LOG_* macros
  - fix_quotes.py            : a repair pass for doubled-quote artifacts

This file shallowly embeds those scripts over `List Char`.  The central
regular expressions of the two migrators
(`OPENAUTO_LOG\((\w+)\)\s*<<\s*([^;]+);` and
`OPENAUTO_LOG\s*\(\s*(\w+)\s*\)\s*<<([^;]+);`) are backtrack-free except
for one corner (an all-whitespace argument), so they are embedded as
deterministic scanners that reproduce Python's leftmost greedy matching
exactly, including that corner.  The four regexes of fix_quotes.py need
genuine backtracking, so they run on a small faithful backtracking engine.
-/

/-- Python's `\w` character class restricted to ASCII: letters, digits, underscore.
The source files only ever see ASCII severity tokens. -/
def isWordChar (c : Char) : Bool := c.isAlphanum || c == '_'

/-- Python's `\s` character class restricted to ASCII: space, tab, LF, CR, FF, VT. -/
def isSpaceChar (c : Char) : Bool :=
  c == ' ' || c == '\t' || c == '\n' || c == '\r' || c == '\x0c' || c == '\x0b'

/-- Boolean inequality test on characters, used for negated regex classes. -/
def neChar (a c : Char) : Bool := !(c == a)

/-- Lowercase a character sequence, as Python's `str.lower()` does for ASCII. -/
def lowerStr (s : List Char) : List Char := s.map Char.toLower

/-- Python's `str.strip()`: drop whitespace from both ends. -/
def pyStrip (s : List Char) : List Char :=
  ((s.dropWhile isSpaceChar).reverse.dropWhile isSpaceChar).reverse

/-- If `p` is a prefix of `s`, return the remainder of `s` after `p`. -/
def stripPre? : List Char → List Char → Option (List Char)
  | [], s => some s
  | _ :: _, [] => none
  | p :: ps, c :: cs => if p = c then stripPre? ps cs else none

/-- Substring test: does `pat` occur (contiguously) anywhere in `s`? -/
def containsSub (pat : List Char) : List Char → Bool
  | [] => (stripPre? pat []).isSome
  | c :: cs => (stripPre? pat (c :: cs)).isSome || containsSub pat cs

/-- Python's `str.replace(pat, rep)`: replace every non-overlapping occurrence,
scanning left to right.  Fuel-driven so that it is structurally recursive;
with fuel `s.length` it processes all of `s`, and with fuel `0` it returns
the remainder unchanged. -/
def replaceAllF (pat rep : List Char) : Nat → List Char → List Char
  | 0, s => s
  | _ + 1, [] => []
  | fuel + 1, c :: cs =>
    match stripPre? pat (c :: cs) with
    | some r => rep ++ replaceAllF pat rep fuel r
    | none => c :: replaceAllF pat rep fuel cs

/-- Python's `str.replace` at full fuel. -/
def replaceAll (pat rep s : List Char) : List Char := replaceAllF pat rep s.length s

/-- First-match lookup in an association table, as Python dict indexing
(keys are distinct in all tables used here). -/
def tblLookup : List (List Char × List Char) → List Char → Option (List Char)
  | [], _ => none
  | (k, v) :: tbl, key => if k = key then some v else tblLookup tbl key

/-- SEVERITY_MAPPING of migrate_logger.py. -/
def SEVERITY_MAPPING : List (List Char × List Char) :=
  [("trace".toList, "LOG_TRACE".toList),
   ("debug".toList, "LOG_DEBUG".toList),
   ("info".toList, "LOG_INFO".toList),
   ("warning".toList, "LOG_WARN".toList),
   ("error".toList, "LOG_ERROR".toList),
   ("fatal".toList, "LOG_FATAL".toList)]

/-- CATEGORY_MAPPING of migrate_logger.py, in insertion (= iteration) order. -/
def CATEGORY_MAPPING : List (List Char × List Char) :=
  [("btservice".toList, "BLUETOOTH".toList),
   ("Service".toList, "ANDROID_AUTO".toList),
   ("UI".toList, "UI".toList),
   ("Camera".toList, "CAMERA".toList),
   ("Video".toList, "VIDEO".toList),
   ("Audio".toList, "AUDIO".toList),
   ("Media".toList, "AUDIO".toList),
   ("Sensor".toList, "SYSTEM".toList),
   ("Navigation".toList, "ANDROID_AUTO".toList),
   ("Radio".toList, "AUDIO".toList),
   ("Phone".toList, "ANDROID_AUTO".toList),
   ("Wifi".toList, "NETWORK".toList),
   ("Network".toList, "NETWORK".toList),
   ("Connection".toList, "NETWORK".toList),
   ("Configuration".toList, "CONFIG".toList),
   ("Factory".toList, "SYSTEM".toList)]

/-- One pass of the category loop: return the category of the first table
entry whose lowercased pattern occurs in `s` (`s` is already lowercased). -/
def findCategory : List (List Char × List Char) → List Char → Option (List Char)
  | [], _ => none
  | (p, c) :: tbl, s => if containsSub (lowerStr p) s then some c else findCategory tbl s

/-- determine_category of both migrators, parameterized by the pattern table:
check the file path first, then the context, defaulting to GENERAL. -/
def determineCatWith (tbl : List (List Char × List Char))
    (filePath context : List Char) : List Char :=
  match findCategory tbl (lowerStr filePath) with
  | some c => c
  | none =>
    match findCategory tbl (lowerStr context) with
    | some c => c
    | none => "GENERAL".toList

/-- determine_category of migrate_logger.py. -/
def determine_category (filePath context : List Char) : List Char :=
  determineCatWith CATEGORY_MAPPING filePath context

/-- The anchored tag-removal `re.sub(r'^\[[\w:]+\]\s*', '', content)` of
extract_message_from_stream: `^` only matches at position 0, so at most the
leading tag is removed. -/
def stripTag (content : List Char) : List Char :=
  match content with
  | '[' :: r =>
    if (r.takeWhile (fun c => isWordChar c || c == ':')).isEmpty then content
    else
      match r.dropWhile (fun c => isWordChar c || c == ':') with
      | ']' :: r2 => r2.dropWhile isSpaceChar
      | _ => content
  | _ => content

/-- The quote-stripping step of extract_message_from_stream: Python's
`message.startswith('"') and message.endswith('"')` then `message[1:-1]`.
Note a single `"` satisfies both tests and is stripped to the empty string,
exactly as in Python. -/
def stripOuterQuotes (msg : List Char) : List Char :=
  match msg with
  | '"' :: _ => if msg.getLast? = some '"' then (msg.drop 1).dropLast else msg
  | _ => msg

/-- extract_message_from_stream of migrate_logger.py. -/
def extract_message_from_stream (content : List Char) : List Char :=
  pyStrip (stripOuterQuotes (stripTag content))

/-- A match of the migrate_logger.py regex
`OPENAUTO_LOG\((\w+)\)\s*<<\s*([^;]+);` at the start of some text.
`sev` is group 1, `ws1` the whitespace consumed between `)` and `<<`,
`t` the whole region between `<<` and the terminating `;` (the second
`\s*` plus group 2), and `rest` the text after the `;`. -/
structure LegMatch where
  sev : List Char
  ws1 : List Char
  t : List Char
  rest : List Char
deriving DecidableEq, Repr

/-- The literal prefix `OPENAUTO_LOG(` of the migrate_logger.py regex. -/
def LEGACY_PRE : List Char := "OPENAUTO_LOG(".toList

/-- Group 2 of the regex.  `\s*` is greedy, so group 2 normally starts at
the first non-space character of `t`; when `t` is entirely whitespace the
engine backtracks `\s*` by one character and `[^;]+` captures exactly the
last whitespace character. -/
def LegMatch.arg (m : LegMatch) : List Char :=
  if (m.t.dropWhile isSpaceChar).isEmpty then m.t.drop (m.t.length - 1)
  else m.t.dropWhile isSpaceChar

/-- Group 0 of the regex: the full matched text. -/
def LegMatch.full (m : LegMatch) : List Char :=
  LEGACY_PRE ++ m.sev ++ [')'] ++ m.ws1 ++ ['<', '<'] ++ m.t ++ [';']

/-- Parse `(\w+)\)`: a nonempty run of word characters followed by `)`. -/
def takeSev (s : List Char) : Option (List Char × List Char) :=
  if (s.takeWhile isWordChar).isEmpty then none
  else
    match s.dropWhile isWordChar with
    | ')' :: s2 => some (s.takeWhile isWordChar, s2)
    | _ => none

/-- Parse `\s*<<`: greedy whitespace followed by the two `<` characters
(`<` is not whitespace, so no backtracking can occur here). -/
def takeWs2 (s : List Char) : Option (List Char × List Char) :=
  match s.dropWhile isSpaceChar with
  | '<' :: '<' :: s3 => some (s.takeWhile isSpaceChar, s3)
  | _ => none

/-- Parse `\s*([^;]+);` as the combined region `t` followed by `;`:
`t` is the maximal semicolon-free run and must be nonempty. -/
def takeArg (s : List Char) : Option (List Char × List Char) :=
  if (s.takeWhile (neChar ';')).isEmpty then none
  else
    match s.dropWhile (neChar ';') with
    | ';' :: s4 => some (s.takeWhile (neChar ';'), s4)
    | _ => none

/-- Attempt to match the migrate_logger.py regex at the start of `s`. -/
def matchLegacyAt (s : List Char) : Option LegMatch :=
  (stripPre? LEGACY_PRE s).bind fun s1 =>
  (takeSev s1).bind fun p1 =>
  (takeWs2 p1.2).bind fun p2 =>
  (takeArg p2.2).map fun p3 => ⟨p1.1, p2.1, p3.1, p3.2⟩

/-- convert_log_call of migrate_logger.py: unknown severities return the
match unchanged (group 0); known ones produce
`LOG_*(CATEGORY, "message");` with exactly one trailing semicolon. -/
def convert_log_call (filePath : List Char) (m : LegMatch) : List Char :=
  match tblLookup SEVERITY_MAPPING m.sev with
  | none => m.full
  | some mac =>
    mac ++ '(' :: determine_category filePath m.arg
        ++ ',' :: ' ' :: '"' :: extract_message_from_stream m.arg
        ++ '"' :: ')' :: [';']

/-- A piece of the re.sub decomposition of a text: either a single
unmatched character or one full regex match. -/
inductive Piece where
  | lit (c : Char)
  | call (m : LegMatch)
deriving DecidableEq, Repr

/-- Is a piece a regex match (a candidate call site)? -/
def Piece.isCall : Piece → Bool
  | .lit _ => false
  | .call _ => true

/-- The source bytes a piece stands for. -/
def pieceText : Piece → List Char
  | .lit c => [c]
  | .call m => m.full

/-- The output bytes re.sub produces for a piece. -/
def renderPiece (filePath : List Char) : Piece → List Char
  | .lit c => [c]
  | .call m => convert_log_call filePath m

/-- The severity a piece contributes to the unknown-severity warning
report: only matches whose token is outside SEVERITY_MAPPING report. -/
def unknownSevOf : Piece → Option (List Char)
  | .lit _ => none
  | .call m =>
    match tblLookup SEVERITY_MAPPING m.sev with
    | none => some m.sev
    | some _ => none

/-- Does re.sub leave this piece byte-identical (unmatched characters and
unknown-severity matches)? -/
def pieceKeeps : Piece → Bool
  | .lit _ => true
  | .call m => (tblLookup SEVERITY_MAPPING m.sev).isNone

/-- Decompose a text into the pieces that one `re.sub` pass over the
migrate_logger.py pattern visits: leftmost matches, scanning resumes after
each match.  Fuel-driven; fuel `s.length` suffices since every step
consumes at least one character. -/
def scanPiecesF : Nat → List Char → List Piece
  | 0, s => s.map Piece.lit
  | _ + 1, [] => []
  | fuel + 1, c :: cs =>
    match matchLegacyAt (c :: cs) with
    | some m => Piece.call m :: scanPiecesF fuel m.rest
    | none => Piece.lit c :: scanPiecesF fuel cs

/-- The re.sub decomposition at full fuel. -/
def scanPieces (s : List Char) : List Piece := scanPiecesF s.length s

/-- One `re.sub(pattern, replace_func, content)` pass of
migrate_logger.py's process_file, written as a direct recursion. -/
def subLegacyF (filePath : List Char) : Nat → List Char → List Char
  | 0, s => s
  | _ + 1, [] => []
  | fuel + 1, c :: cs =>
    match matchLegacyAt (c :: cs) with
    | some m => convert_log_call filePath m ++ subLegacyF filePath fuel m.rest
    | none => c :: subLegacyF filePath fuel cs

/-- The re.sub pass at full fuel. -/
def subLegacy (filePath s : List Char) : List Char := subLegacyF filePath s.length s

/-- The unknown-severity warnings printed during one re.sub pass, in scan
order (one per unknown-severity match). -/
def subWarnF : Nat → List Char → List (List Char)
  | 0, _ => []
  | _ + 1, [] => []
  | fuel + 1, c :: cs =>
    match matchLegacyAt (c :: cs) with
    | some m =>
      (match tblLookup SEVERITY_MAPPING m.sev with
       | none => [m.sev]
       | some _ => []) ++ subWarnF fuel m.rest
    | none => subWarnF fuel cs

/-- The warning list at full fuel. -/
def subWarn (s : List Char) : List (List Char) := subWarnF s.length s

/-- The legacy include directive replaced by process_file. -/
def OLD_INCLUDE : List Char := "#include <f1x/openauto/Common/Log.hpp>".toList

/-- Its replacement. -/
def NEW_INCLUDE : List Char := "#include <modern/Logger.hpp>".toList

/-- The include-rewriting step of process_file (`content.replace(...)`). -/
def replaceInclude (s : List Char) : List Char := replaceAll OLD_INCLUDE NEW_INCLUDE s

/-- The full text transformation of migrate_logger.py's process_file:
replace the include directive, then run the re.sub pass. -/
def migrate (filePath s : List Char) : List Char := subLegacy filePath (replaceInclude s)

/-- The unknown-severity report produced while migrating `s` (the regex
pass runs on the text after include replacement). -/
def migrateReport (s : List Char) : List (List Char) := subWarn (replaceInclude s)

/-- Does a text contain at least one regex match (call piece)? -/
def hasCallB (s : List Char) : Bool := (scanPieces s).any Piece.isCall

/-- The `modified` flag of process_file, which is also its return value
when the write succeeds: set when the include directive occurred, or when
`replace_func` ran for at least one regex match — regardless of whether the
conversion changed any bytes. -/
def process_file_modified (s : List Char) : Bool :=
  containsSub OLD_INCLUDE s || hasCallB (replaceInclude s)

/-- SEVERITY_MAPPING of scripts/migrate_to_modern_logger.py. -/
def SEVERITY_MAPPING2 : List (List Char × List Char) :=
  [("trace".toList, "OPENAUTO_LOG_TRACE".toList),
   ("debug".toList, "OPENAUTO_LOG_DEBUG".toList),
   ("info".toList, "OPENAUTO_LOG_INFO".toList),
   ("warning".toList, "OPENAUTO_LOG_WARN".toList),
   ("error".toList, "OPENAUTO_LOG_ERROR".toList),
   ("fatal".toList, "OPENAUTO_LOG_FATAL".toList)]

/-- CATEGORY_MAPPING of scripts/migrate_to_modern_logger.py (three extra
entries at the end). -/
def CATEGORY_MAPPING2 : List (List Char × List Char) :=
  CATEGORY_MAPPING ++
  [("Input".toList, "INPUT".toList),
   ("Projection".toList, "PROJECTION".toList),
   ("Settings".toList, "SETTINGS".toList)]

/-- determine_category of scripts/migrate_to_modern_logger.py. -/
def determine_category2 (filePath context : List Char) : List Char :=
  determineCatWith CATEGORY_MAPPING2 filePath context

/-- A match of the scripts/migrate_to_modern_logger.py regex
`OPENAUTO_LOG\s*\(\s*(\w+)\s*\)\s*<<([^;]+);` at the start of some text.
Group 2 is `t` itself (it starts immediately after `<<`). -/
structure SMatch where
  wsa : List Char
  wsb : List Char
  sev : List Char
  wsc : List Char
  wsd : List Char
  t : List Char
  rest : List Char
deriving DecidableEq, Repr

/-- Group 0 of the scripts regex. -/
def SMatch.full (m : SMatch) : List Char :=
  "OPENAUTO_LOG".toList ++ m.wsa ++ ['('] ++ m.wsb ++ m.sev ++ m.wsc
    ++ [')'] ++ m.wsd ++ ['<', '<'] ++ m.t ++ [';']

/-- Attempt to match the scripts regex at the start of `s`.  Every
quantifier is followed by a character outside its class, so the scan is
deterministic. -/
def sMatchAt (s : List Char) : Option SMatch :=
  match stripPre? "OPENAUTO_LOG".toList s with
  | none => none
  | some s0 =>
    match (s0.dropWhile isSpaceChar) with
    | '(' :: s1 =>
      let wsa := s0.takeWhile isSpaceChar
      let wsb := s1.takeWhile isSpaceChar
      let s1d := s1.dropWhile isSpaceChar
      let sev := s1d.takeWhile isWordChar
      if sev.isEmpty then none
      else
        match (s1d.dropWhile isWordChar).dropWhile isSpaceChar with
        | ')' :: s2 =>
          let wsc := (s1d.dropWhile isWordChar).takeWhile isSpaceChar
          let wsd := s2.takeWhile isSpaceChar
          match s2.dropWhile isSpaceChar with
          | '<' :: '<' :: s3 =>
            let t := s3.takeWhile (neChar ';')
            if t.isEmpty then none
            else
              match s3.dropWhile (neChar ';') with
              | ';' :: s4 => some ⟨wsa, wsb, sev, wsc, wsd, t, s4⟩
              | _ => none
          | _ => none
        | _ => none
    | _ => none

/-- convert_log_call of scripts/migrate_to_modern_logger.py.  Note that the
returned replacement carries no statement terminator (line 107 of the
source emits `MACRO(CATEGORY, message)` with no `;`). -/
def convert_log_call2 (filePath : List Char) (m : SMatch) : List Char :=
  match tblLookup SEVERITY_MAPPING2 m.sev with
  | none => m.full
  | some mac =>
    let sc := pyStrip m.t
    let cat := determine_category2 filePath sc
    let msg :=
      if (match sc with | '"' :: _ => true | _ => false)
          && (sc.getLast? = some '"' : Bool) then sc
      else if containsSub ['<', '<'] sc then
        "(std::stringstream() << ".toList ++ sc ++ ").str()".toList
      else '(' :: sc ++ ").str()".toList
    mac ++ '(' :: cat ++ ',' :: ' ' :: msg ++ [')']

/-- One re.sub pass of scripts/migrate_to_modern_logger.py's process_file. -/
def sSubF (filePath : List Char) : Nat → List Char → List Char
  | 0, s => s
  | _ + 1, [] => []
  | fuel + 1, c :: cs =>
    match sMatchAt (c :: cs) with
    | some m => convert_log_call2 filePath m ++ sSubF filePath fuel m.rest
    | none => c :: sSubF filePath fuel cs

/-- The scripts re.sub pass at full fuel. -/
def sSub (filePath s : List Char) : List Char := sSubF filePath s.length s

/-- A token of the tiny regex engine used for fix_quotes.py: a literal
character, or a character class with `one = true` for `+` and `one = false`
for `*`. -/
inductive RTok where
  | lit (c : Char)
  | cls (p : Char → Bool) (one : Bool)

/-- Candidate lengths for a greedy class: the length of the maximal run
first, descending to the minimum, matching Python's backtracking order. -/
def greedyLens (maxLen minLen : Nat) : List Nat :=
  ((List.range (maxLen + 1)).reverse).filter (fun k => minLen ≤ k)

/-- Match a token sequence at the start of `s` with Python's
leftmost-greedy backtracking semantics.  On success, return the list of
per-token matched substrings (for group reconstruction) and the remaining
text. -/
def matchToks : List RTok → List Char → Option (List (List Char) × List Char)
  | [], s => some ([], s)
  | RTok.lit _ :: _, [] => none
  | RTok.lit c :: ts, x :: xs =>
    if x = c then (matchToks ts xs).map (fun r => ([c] :: r.1, r.2)) else none
  | RTok.cls p one :: ts, s =>
    (greedyLens (s.takeWhile p).length (if one then 1 else 0)).findSome?
      (fun k => (matchToks ts (s.drop k)).map (fun r => (s.take k :: r.1, r.2)))

/-- One re.sub pass for an engine pattern: scan left to right, replacing
each leftmost match using `build` applied to the per-token substrings.
All patterns used here start with literals, so no match is empty. -/
def reSubF (toks : List RTok) (build : List (List Char) → List Char) :
    Nat → List Char → List Char
  | 0, s => s
  | _ + 1, [] => []
  | fuel + 1, c :: cs =>
    match matchToks toks (c :: cs) with
    | some (gs, rest) => build gs ++ reSubF toks build fuel rest
    | none => c :: reSubF toks build fuel cs

/-- The engine re.sub at full fuel. -/
def reSub (toks : List RTok) (build : List (List Char) → List Char)
    (s : List Char) : List Char := reSubF toks build s.length s

/-- Literal tokens for a plain string. -/
def litToks (s : String) : List RTok := s.toList.map RTok.lit

/-- The `[A-Z]` character class. -/
def isUpperAZ (c : Char) : Bool := 65 ≤ c.toNat && c.toNat ≤ 90

/-- fix_quotes.py pattern 1: `(LOG_[A-Z]+\([^,]+,\s*)""([^"]+)"`.
Token indices: 0-3 `LOG_`, 4 `[A-Z]+`, 5 `(`, 6 `[^,]+`, 7 `,`, 8 `\s*`,
9-10 `""`, 11 `[^"]+`, 12 `"`. -/
def rtoks1 : List RTok :=
  litToks "LOG_" ++ [RTok.cls isUpperAZ true] ++ litToks "("
    ++ [RTok.cls (neChar ',') true] ++ litToks ","
    ++ [RTok.cls isSpaceChar false] ++ litToks "\"\""
    ++ [RTok.cls (neChar '"') true] ++ litToks "\""

/-- Replacement `\1"\2"` for pattern 1 (group 1 is tokens 0-8). -/
def build1 (gs : List (List Char)) : List Char :=
  (gs.take 9).flatten ++ '"' :: gs.getD 11 [] ++ ['"']

/-- fix_quotes.py pattern 2:
`(LOG_[A-Z]+\([^,]+,\s*)""([^"]+)([^)]+)"\);`.
Token indices: 0-8 as in pattern 1, 9-10 `""`, 11 `[^"]+`, 12 `[^)]+`,
13 `"`, 14 `)`, 15 `;`. -/
def rtoks2 : List RTok :=
  litToks "LOG_" ++ [RTok.cls isUpperAZ true] ++ litToks "("
    ++ [RTok.cls (neChar ',') true] ++ litToks ","
    ++ [RTok.cls isSpaceChar false] ++ litToks "\"\""
    ++ [RTok.cls (neChar '"') true] ++ [RTok.cls (neChar ')') true]
    ++ litToks "\");"

/-- Replacement `\1"\2\3);` for pattern 2. -/
def build2 (gs : List (List Char)) : List Char :=
  (gs.take 9).flatten ++ '"' :: (gs.getD 11 [] ++ gs.getD 12 []) ++ [')', ';']

/-- fix_quotes.py pattern 3: the literal `"\);";` (fix `");";` endings). -/
def rtoks3 : List RTok := litToks "\");\";"

/-- Replacement `");` for pattern 3. -/
def build3 (_ : List (List Char)) : List Char := "\");".toList

/-- fix_quotes.py pattern 4:
`(LOG_[A-Z]+\([^,]+,\s*)""([^"]+<<[^)]*)\);"` (the MULTILINE and DOTALL
flags are irrelevant: the pattern contains no anchors and no dot).
Token indices: 0-8 as above, 9-10 `""`, 11 `[^"]+`, 12-13 `<<`,
14 `[^)]*`, 15 `)`, 16 `;`, 17 `"`. -/
def rtoks4 : List RTok :=
  litToks "LOG_" ++ [RTok.cls isUpperAZ true] ++ litToks "("
    ++ [RTok.cls (neChar ',') true] ++ litToks ","
    ++ [RTok.cls isSpaceChar false] ++ litToks "\"\""
    ++ [RTok.cls (neChar '"') true] ++ litToks "<<"
    ++ [RTok.cls (neChar ')') false] ++ litToks ");\""

/-- Replacement `\1"\2);` for pattern 4 (group 2 is tokens 11-14). -/
def build4 (gs : List (List Char)) : List Char :=
  (gs.take 9).flatten ++ '"' :: (gs.getD 11 [] ++ '<' :: '<' :: gs.getD 14 [])
    ++ [')', ';']

/-- fix_logger_quotes of fix_quotes.py: the four re.sub passes applied in
source order. -/
def fix_logger_quotes (s : List Char) : List Char :=
  reSub rtoks4 build4 (reSub rtoks3 build3 (reSub rtoks2 build2 (reSub rtoks1 build1 s)))

/-- Stripping a prefix succeeds exactly when the text is the prefix
followed by the remainder. -/
theorem stripPre_eq (p : List Char) :
    ∀ s r, stripPre? p s = some r → s = p ++ r := by
  induction p with
  | nil =>
    intro s r h
    simp [stripPre?] at h
    simp [h]
  | cons a ps ih =>
    intro s r h
    cases s with
    | nil => simp [stripPre?] at h
    | cons c cs =>
      simp only [stripPre?] at h
      by_cases hac : a = c
      · simp only [hac, if_pos rfl] at h
        have := ih cs r h
        simp [hac, this]
      · simp [hac] at h

/-- takeSev decomposes its input as severity token, `)`, remainder. -/
theorem takeSev_eq (s sev s2 : List Char) (h : takeSev s = some (sev, s2)) :
    s = sev ++ ')' :: s2 := by
  unfold takeSev at h
  by_cases he : (s.takeWhile isWordChar).isEmpty
  · simp [he] at h
  · simp only [he, if_neg, Bool.false_eq_true, not_false_iff] at h
    cases hd : s.dropWhile isWordChar with
    | nil => rw [hd] at h; simp at h
    | cons c cs =>
      rw [hd] at h
      by_cases hc : c = ')'
      · subst hc
        simp only [Option.some.injEq, Prod.mk.injEq] at h
        obtain ⟨h1, h2⟩ := h
        subst h1; subst h2
        rw [← hd]
        exact (List.takeWhile_append_dropWhile (p := isWordChar) (l := s)).symm
      · cases c <;> simp_all

/-- takeWs2 decomposes its input as whitespace, `<<`, remainder. -/
theorem takeWs2_eq (s ws s3 : List Char) (h : takeWs2 s = some (ws, s3)) :
    s = ws ++ '<' :: '<' :: s3 := by
  unfold takeWs2 at h
  cases hd : s.dropWhile isSpaceChar with
  | nil => rw [hd] at h; simp at h
  | cons c cs =>
    rw [hd] at h
    by_cases hc : c = '<'
    · subst hc
      cases cs with
      | nil => simp at h
      | cons c2 cs2 =>
        by_cases hc2 : c2 = '<'
        · subst hc2
          simp only [Option.some.injEq, Prod.mk.injEq] at h
          obtain ⟨h1, h2⟩ := h
          subst h1; subst h2
          rw [← hd]
          exact (List.takeWhile_append_dropWhile (p := isSpaceChar) (l := s)).symm
        · cases c2 <;> simp_all
    · cases c <;> simp_all

/-- takeArg decomposes its input as the semicolon-free region, `;`,
remainder. -/
theorem takeArg_eq (s t s4 : List Char) (h : takeArg s = some (t, s4)) :
    s = t ++ ';' :: s4 := by
  unfold takeArg at h
  by_cases he : (s.takeWhile (neChar ';')).isEmpty
  · simp [he] at h
  · simp only [he, if_neg, Bool.false_eq_true, not_false_iff] at h
    cases hd : s.dropWhile (neChar ';') with
    | nil => rw [hd] at h; simp at h
    | cons c cs =>
      rw [hd] at h
      by_cases hc : c = ';'
      · subst hc
        simp only [Option.some.injEq, Prod.mk.injEq] at h
        obtain ⟨h1, h2⟩ := h
        subst h1; subst h2
        rw [← hd]
        exact (List.takeWhile_append_dropWhile (p := neChar ';') (l := s)).symm
      · cases c <;> simp_all

/-- A successful match reproduces the input exactly: the matched text
followed by the rest is the whole scanned text. -/
theorem matchLegacyAt_reconstruct (s : List Char) (m : LegMatch)
    (h : matchLegacyAt s = some m) : m.full ++ m.rest = s := by
  unfold matchLegacyAt at h
  simp only [Option.bind_eq_some, Option.map_eq_some'] at h
  obtain ⟨s1, h0, p1, h1, p2, h2, p3, h3, hm⟩ := h
  obtain ⟨sev, s2⟩ := p1
  obtain ⟨ws1, s3⟩ := p2
  obtain ⟨t, s4⟩ := p3
  have e0 := stripPre_eq _ _ _ h0
  have e1 := takeSev_eq _ _ _ h1
  have e2 := takeWs2_eq _ _ _ h2
  have e3 := takeArg_eq _ _ _ h3
  subst hm
  simp only at e2 e3
  simp only [LegMatch.full, e0, e1, e2, e3]
  simp

/-- The matched text is never empty (it starts with `OPENAUTO_LOG(`). -/
theorem LegMatch.full_ne_nil (m : LegMatch) : m.full ≠ [] := by
  simp [LegMatch.full, LEGACY_PRE]

/-- Flattening singletons reproduces the list. -/
theorem flatten_map_singleton (s : List Char) :
    (s.map (fun c => [c])).flatten = s := by
  induction s with
  | nil => rfl
  | cons c cs ih => simp [ih]

/-- The scan decomposition is exact: concatenating the source bytes of all
pieces gives back the scanned text, at every fuel. -/
theorem scanPiecesF_text (fuel : Nat) :
    ∀ s : List Char, ((scanPiecesF fuel s).map pieceText).flatten = s := by
  induction fuel with
  | zero =>
    intro s
    simp only [scanPiecesF, List.map_map]
    have : pieceText ∘ Piece.lit = fun c => [c] := by
      funext c; rfl
    rw [this, flatten_map_singleton]
  | succ f ih =>
    intro s
    cases s with
    | nil => simp [scanPiecesF]
    | cons c cs =>
      simp only [scanPiecesF]
      cases h : matchLegacyAt (c :: cs) with
      | none => simp [pieceText, ih cs]
      | some m =>
        simp only [List.map_cons, List.flatten_cons, pieceText, ih m.rest]
        exact matchLegacyAt_reconstruct _ _ h

/-- The direct re.sub recursion renders exactly the pieces of the scan
decomposition, at every fuel. -/
theorem subLegacyF_render (filePath : List Char) (fuel : Nat) :
    ∀ s : List Char,
      subLegacyF filePath fuel s
        = ((scanPiecesF fuel s).map (renderPiece filePath)).flatten := by
  induction fuel with
  | zero =>
    intro s
    simp only [subLegacyF, scanPiecesF, List.map_map]
    have : renderPiece filePath ∘ Piece.lit = fun c => [c] := by
      funext c; rfl
    rw [this, flatten_map_singleton]
  | succ f ih =>
    intro s
    cases s with
    | nil => simp [subLegacyF, scanPiecesF]
    | cons c cs =>
      simp only [subLegacyF, scanPiecesF]
      cases h : matchLegacyAt (c :: cs) with
      | none => simp [renderPiece, ih cs]
      | some m => simp [renderPiece, ih m.rest]

/-- The warning recursion collects exactly the unknown severities of the
scan decomposition, in order, at every fuel. -/
theorem subWarnF_report (fuel : Nat) :
    ∀ s : List Char,
      subWarnF fuel s = (scanPiecesF fuel s).filterMap unknownSevOf := by
  induction fuel with
  | zero =>
    intro s
    simp only [subWarnF, scanPiecesF]
    induction s with
    | nil => rfl
    | cons c cs ihs => simp [unknownSevOf, ihs]
  | succ f ih =>
    intro s
    cases s with
    | nil => simp [subWarnF, scanPiecesF]
    | cons c cs =>
      simp only [subWarnF, scanPiecesF]
      cases h : matchLegacyAt (c :: cs) with
      | none => simp [unknownSevOf, ih cs]
      | some m =>
        simp only [List.filterMap_cons, unknownSevOf]
        cases hl : tblLookup SEVERITY_MAPPING m.sev with
        | none => simp [ih m.rest]
        | some mac => simp [ih m.rest]

/-- A text with no occurrence of `pat` passes through `replaceAllF`
unchanged, at every fuel. -/
theorem replaceAllF_id (pat rep : List Char) (fuel : Nat) :
    ∀ s : List Char, containsSub pat s = false → replaceAllF pat rep fuel s = s := by
  induction fuel with
  | zero => intro s _; rfl
  | succ f ih =>
    intro s hc
    cases s with
    | nil => rfl
    | cons c cs =>
      simp only [containsSub, Bool.or_eq_false_iff] at hc
      obtain ⟨h1, h2⟩ := hc
      simp only [replaceAllF]
      cases hp : stripPre? pat (c :: cs) with
      | none => simp [ih cs h2]
      | some r => rw [hp] at h1; simp at h1

/-- Pieces that re.sub keeps verbatim render to their own source bytes. -/
theorem renderPiece_of_keeps (filePath : List Char) :
    ∀ pieces : List Piece, pieces.all pieceKeeps = true →
      pieces.map (renderPiece filePath) = pieces.map pieceText := by
  intro pieces hall
  induction pieces with
  | nil => rfl
  | cons p ps ih =>
    simp only [List.all_cons, Bool.and_eq_true] at hall
    obtain ⟨hp, hps⟩ := hall
    simp only [List.map_cons, ih hps]
    congr 1
    cases p with
    | lit c => rfl
    | call m =>
      simp only [pieceKeeps, Option.isNone_iff_eq_none] at hp
      simp [renderPiece, pieceText, convert_log_call, hp]

/-- On a text with no include directive and whose scan pieces are all kept
verbatim, the whole migrate transformation is the identity. -/
theorem migrate_id_of_keeps (filePath s : List Char)
    (hinc : containsSub OLD_INCLUDE s = false)
    (hkeep : (scanPieces s).all pieceKeeps = true) :
    migrate filePath s = s := by
  have hri : replaceInclude s = s := replaceAllF_id _ _ _ _ hinc
  unfold scanPieces at hkeep
  unfold migrate subLegacy
  rw [hri, subLegacyF_render, renderPiece_of_keeps _ _ hkeep]
  exact scanPiecesF_text _ _

/-- The first-match loop equals "head of the order-preserving filter":
this is what makes "the earliest matching table entry wins" precise. -/
theorem findCategory_eq (tbl : List (List Char × List Char)) (s : List Char) :
    findCategory tbl s
      = ((tbl.filter (fun e => containsSub (lowerStr e.1) s)).head?).map Prod.snd := by
  induction tbl with
  | nil => rfl
  | cons e tbl ih =>
    obtain ⟨p, c⟩ := e
    cases h : containsSub (lowerStr p) s with
    | true => simp [findCategory, h, List.filter_cons]
    | false => simp [findCategory, h, List.filter_cons, ih]

/-- Closed form of determine_category for an arbitrary table: earliest
path match wins; otherwise earliest context match; otherwise GENERAL. -/
theorem determineCatWith_eq (tbl : List (List Char × List Char))
    (filePath context : List Char) :
    determineCatWith tbl filePath context
      = (((tbl.filter (fun e => containsSub (lowerStr e.1) (lowerStr filePath))).head?).map
            Prod.snd).getD
          ((((tbl.filter (fun e => containsSub (lowerStr e.1) (lowerStr context))).head?).map
              Prod.snd).getD "GENERAL".toList) := by
  unfold determineCatWith
  rw [findCategory_eq, findCategory_eq]
  cases (tbl.filter (fun e => containsSub (lowerStr e.1) (lowerStr filePath))).head? with
  | some e => simp
  | none =>
    cases (tbl.filter (fun e => containsSub (lowerStr e.1) (lowerStr context))).head? with
    | some e => simp
    | none => simp

/-- hasCallB false means every scan piece is an unmatched character, hence
kept verbatim by re.sub. -/
theorem keeps_of_noCall (s : List Char) (h : hasCallB s = false) :
    (scanPieces s).all pieceKeeps = true := by
  unfold hasCallB at h
  rw [List.all_eq_true]
  intro p hp
  cases p with
  | lit c => rfl
  | call m =>
    rw [List.any_eq_false] at h
    exact absurd (h _ hp) (by simp [Piece.isCall])

/-- C1: the claim that migrate is idempotent on all texts is false.  At
this input the first pass rewrites the call and embeds the message — which
itself spells a legacy invocation — into the replacement, and the second
pass matches inside that replacement and rewrites again, yielding a third,
different text. -/
theorem C1_counterexample :
    migrate "main.cpp".toList (migrate "main.cpp".toList
        "OPENAUTO_LOG(info) << \"OPENAUTO_LOG(debug) << y\";".toList)
      ≠ migrate "main.cpp".toList
          "OPENAUTO_LOG(info) << \"OPENAUTO_LOG(debug) << y\";".toList := by
  decide

/-- C1 (amended): migrate is idempotent on exactly those inputs whose
migrated form contains no further regex match and no legacy include
directive; in particular output already in canonical form (no legacy
macro, no legacy include) is a fixed point. -/
theorem C1_idempotent_amended (filePath T : List Char)
    (h1 : hasCallB (migrate filePath T) = false)
    (h2 : containsSub OLD_INCLUDE (migrate filePath T) = false) :
    migrate filePath (migrate filePath T) = migrate filePath T :=
  migrate_id_of_keeps _ _ h2 (keeps_of_noCall _ h1)

/-- Witness for C1: a typical input whose migrated form has no residual
match, on which the amended idempotence theorem applies. -/
theorem C1_witness :
    hasCallB (migrate "main.cpp".toList "OPENAUTO_LOG(info) << \"hi\";".toList) = false
  ∧ containsSub OLD_INCLUDE
      (migrate "main.cpp".toList "OPENAUTO_LOG(info) << \"hi\";".toList) = false
  ∧ migrate "main.cpp".toList
        (migrate "main.cpp".toList "OPENAUTO_LOG(info) << \"hi\";".toList)
      = migrate "main.cpp".toList "OPENAUTO_LOG(info) << \"hi\";".toList :=
  ⟨by decide, by decide, C1_idempotent_amended _ _ (by decide) (by decide)⟩

/-- C2: the locator is the regex `OPENAUTO_LOG\((\w+)\)\s*<<\s*([^;]+);`,
not a quote-aware balanced scan.  On an argument whose string literal
contains a semicolon, group 2 is truncated at that semicolon (inside the
literal), the replacement is mangled, and the literal's tail is left
behind — instead of extracting the full argument `"a;b"`. -/
theorem C2_code_eval :
    migrate "main.cpp".toList "OPENAUTO_LOG(info) << \"a;b\";".toList
      = "LOG_INFO(GENERAL, \"\"a\");b\";".toList
  ∧ migrate "main.cpp".toList "OPENAUTO_LOG(info) << \"a;b\";".toList
      ≠ "LOG_INFO(GENERAL, \"a;b\");".toList := by
  decide

/-- C3: for a Chain argument the code of migrate_logger.py does not wrap
the chain as a single expression; it pastes the raw chain between two
injected quote characters, producing the doubled-quote artifact
`""a" << b"` instead of preserving the chain's quotes exactly as written
inside a single-expression wrapper. -/
theorem C3_code_eval :
    migrate "main.cpp".toList "OPENAUTO_LOG(info) << \"a\" << b;".toList
      = "LOG_INFO(GENERAL, \"\"a\" << b\");".toList
  ∧ migrate "main.cpp".toList "OPENAUTO_LOG(info) << \"a\" << b;".toList
      ≠ "LOG_INFO(GENERAL, \"a\" << b);".toList := by
  decide

/-- C4: the rewriter of scripts/migrate_to_modern_logger.py emits zero
statement terminators, not exactly one: the matched input ends with one
`;` but the replacement for the whole match carries none. -/
theorem C4_code_eval :
    sSub "main.cpp".toList "OPENAUTO_LOG(info) << \"x\";".toList
      = "OPENAUTO_LOG_INFO(GENERAL, \"x\")".toList
  ∧ (sSub "main.cpp".toList "OPENAUTO_LOG(info) << \"x\";".toList).countP
      (fun c => c == ';') = 0
  ∧ ("OPENAUTO_LOG(info) << \"x\";".toList).countP (fun c => c == ';') = 1 := by
  decide

/-- C5: the claim fails as stated, because the include replacement runs on
the whole text before the regex pass: an unknown-severity call whose
argument contains the legacy include directive is altered byte-for-byte
even though its severity is unknown.  The input below holds exactly one
call site, that site is unknown-severity, yet the output differs. -/
theorem C5_counterexample :
    (scanPieces
        "OPENAUTO_LOG(crit) << \"#include <f1x/openauto/Common/Log.hpp>\";".toList).countP
      Piece.isCall = 1
  ∧ (scanPieces
        "OPENAUTO_LOG(crit) << \"#include <f1x/openauto/Common/Log.hpp>\";".toList).all
      pieceKeeps = true
  ∧ migrate "main.cpp".toList
        "OPENAUTO_LOG(crit) << \"#include <f1x/openauto/Common/Log.hpp>\";".toList
      ≠ "OPENAUTO_LOG(crit) << \"#include <f1x/openauto/Common/Log.hpp>\";".toList := by
  decide

/-- C5 (amended): on texts with no legacy include directive, every
unknown-severity match is replaced by its own bytes (group 0), the output
is the piecewise rendering of the exact scan decomposition of the input,
and the Unknown report lists exactly one entry per unknown-severity match,
in scan order. -/
theorem C5_unknown_preservation (filePath s : List Char)
    (hinc : containsSub OLD_INCLUDE s = false) :
    (∀ m : LegMatch, Piece.call m ∈ scanPieces s →
        tblLookup SEVERITY_MAPPING m.sev = none →
        convert_log_call filePath m = m.full)
  ∧ migrate filePath s = ((scanPieces s).map (renderPiece filePath)).flatten
  ∧ ((scanPieces s).map pieceText).flatten = s
  ∧ migrateReport s = (scanPieces s).filterMap unknownSevOf := by
  have hri : replaceInclude s = s := replaceAllF_id _ _ _ _ hinc
  refine ⟨?_, ?_, ?_, ?_⟩
  · intro m _ hm
    simp [convert_log_call, hm]
  · unfold migrate subLegacy scanPieces
    rw [hri]
    exact subLegacyF_render _ _ _
  · exact scanPiecesF_text _ _
  · unfold migrateReport subWarn scanPieces
    rw [hri]
    exact subWarnF_report _ _

/-- Witness for C5: a text with one unknown-severity call and one known
one, instantiating the amended preservation theorem. -/
theorem C5_witness :
    containsSub OLD_INCLUDE
        "OPENAUTO_LOG(wat) << \"x\"; OPENAUTO_LOG(error) << \"y\";".toList = false
  ∧ ((∀ m : LegMatch,
        Piece.call m ∈ scanPieces
          "OPENAUTO_LOG(wat) << \"x\"; OPENAUTO_LOG(error) << \"y\";".toList →
        tblLookup SEVERITY_MAPPING m.sev = none →
        convert_log_call "a.cpp".toList m = m.full)
    ∧ migrate "a.cpp".toList
          "OPENAUTO_LOG(wat) << \"x\"; OPENAUTO_LOG(error) << \"y\";".toList
        = ((scanPieces
              "OPENAUTO_LOG(wat) << \"x\"; OPENAUTO_LOG(error) << \"y\";".toList).map
            (renderPiece "a.cpp".toList)).flatten
    ∧ ((scanPieces
          "OPENAUTO_LOG(wat) << \"x\"; OPENAUTO_LOG(error) << \"y\";".toList).map
        pieceText).flatten
        = "OPENAUTO_LOG(wat) << \"x\"; OPENAUTO_LOG(error) << \"y\";".toList
    ∧ migrateReport "OPENAUTO_LOG(wat) << \"x\"; OPENAUTO_LOG(error) << \"y\";".toList
        = (scanPieces
            "OPENAUTO_LOG(wat) << \"x\"; OPENAUTO_LOG(error) << \"y\";".toList).filterMap
            unknownSevOf) :=
  ⟨by decide, C5_unknown_preservation "a.cpp".toList _ (by decide)⟩

/-- C6: category resolution is a pure function with path-first precedence.
The first-match loops over the ordered table equal "second component of
the head of the order-preserving filter", so the earliest matching entry
wins (case-insensitively, via lowercasing both sides); the context/message
table pass is consulted only when no entry matches the path; and when
neither pass matches, the result is GENERAL.  Stated for the
migrate_logger.py table and for the scripts table. -/
theorem C6_category_resolution (filePath context : List Char) :
    determine_category filePath context
      = (((CATEGORY_MAPPING.filter
              (fun e => containsSub (lowerStr e.1) (lowerStr filePath))).head?).map
            Prod.snd).getD
          ((((CATEGORY_MAPPING.filter
                (fun e => containsSub (lowerStr e.1) (lowerStr context))).head?).map
              Prod.snd).getD "GENERAL".toList)
  ∧ determine_category2 filePath context
      = (((CATEGORY_MAPPING2.filter
              (fun e => containsSub (lowerStr e.1) (lowerStr filePath))).head?).map
            Prod.snd).getD
          ((((CATEGORY_MAPPING2.filter
                (fun e => containsSub (lowerStr e.1) (lowerStr context))).head?).map
              Prod.snd).getD "GENERAL".toList) :=
  ⟨determineCatWith_eq CATEGORY_MAPPING filePath context,
   determineCatWith_eq CATEGORY_MAPPING2 filePath context⟩

/-- C7: conservation fails as stated, because the include replacement
rewrites bytes that belong to no call-site range: on a text that is just
the legacy include directive there are no call sites at all, yet the
output differs from the input. -/
theorem C7_counterexample :
    hasCallB OLD_INCLUDE = false
  ∧ migrate "main.cpp".toList OLD_INCLUDE ≠ OLD_INCLUDE := by
  decide

/-- C7 (amended): on texts containing no legacy include directive,
the output is obtained from the exact scan decomposition of the input by
rendering each piece in place — call pieces become their replacements and
every unmatched byte renders to itself — so all bytes outside call-site
ranges appear unchanged and in the same relative order. -/
theorem C7_conservation (filePath s : List Char)
    (hinc : containsSub OLD_INCLUDE s = false) :
    migrate filePath s = ((scanPieces s).map (renderPiece filePath)).flatten
  ∧ ((scanPieces s).map pieceText).flatten = s
  ∧ ∀ c : Char, renderPiece filePath (Piece.lit c) = [c] := by
  have hri : replaceInclude s = s := replaceAllF_id _ _ _ _ hinc
  refine ⟨?_, scanPiecesF_text _ _, fun c => rfl⟩
  unfold migrate subLegacy scanPieces
  rw [hri]
  exact subLegacyF_render _ _ _

/-- Witness for C7: a call surrounded by untouched context bytes. -/
theorem C7_witness :
    containsSub OLD_INCLUDE
        "int a; OPENAUTO_LOG(info) << \"m\"; int b;".toList = false
  ∧ (migrate "main.cpp".toList "int a; OPENAUTO_LOG(info) << \"m\"; int b;".toList
        = ((scanPieces "int a; OPENAUTO_LOG(info) << \"m\"; int b;".toList).map
            (renderPiece "main.cpp".toList)).flatten
    ∧ ((scanPieces "int a; OPENAUTO_LOG(info) << \"m\"; int b;".toList).map
        pieceText).flatten
        = "int a; OPENAUTO_LOG(info) << \"m\"; int b;".toList
    ∧ ∀ c : Char, renderPiece "main.cpp".toList (Piece.lit c) = [c]) :=
  ⟨by decide, C7_conservation "main.cpp".toList _ (by decide)⟩

/-- C8: Scenario A.  The call with severity token `error` and plain quoted
literal message in a file path containing NetworkManager.cpp is rewritten
to the target call with the ERROR macro, category NETWORK, the single
quoted literal, and one statement terminator. -/
theorem C8_scenarioA :
    migrate "src/NetworkManager.cpp".toList
        "OPENAUTO_LOG(error) << \"connection lost\";".toList
      = "LOG_ERROR(NETWORK, \"connection lost\");".toList := by
  decide

/-- C9: on the doubled-quote artifact of Scenario E, the repair pass of
fix_quotes.py collapses only the leading doubled quote (its first pattern
stops at the first closing quote) and leaves the trailing doubled quote in
place, so the output is still malformed rather than the canonical call. -/
theorem C9_code_eval :
    fix_logger_quotes "LOG_ERROR(AUDIO, \"\"clip\"\");".toList
      = "LOG_ERROR(AUDIO, \"clip\"\");".toList
  ∧ fix_logger_quotes "LOG_ERROR(AUDIO, \"\"clip\"\");".toList
      ≠ "LOG_ERROR(AUDIO, \"clip\");".toList := by
  decide

/-- C10: process_file sets `modified` inside `replace_func` for every
regex match before the conversion result is inspected, so on a text whose
matches all have unrecognized severities (and no legacy include), the
output equals the input byte for byte while the file still counts as
migrated (return value True). -/
theorem C10_modified_flag (filePath s : List Char)
    (hinc : containsSub OLD_INCLUDE s = false)
    (hkeep : (scanPieces s).all pieceKeeps = true)
    (hcall : hasCallB s = true) :
    migrate filePath s = s ∧ process_file_modified s = true := by
  have hri : replaceInclude s = s := replaceAllF_id _ _ _ _ hinc
  refine ⟨migrate_id_of_keeps _ _ hinc hkeep, ?_⟩
  unfold process_file_modified
  rw [hri, hinc, hcall]
  rfl

/-- Witness for C10: a file whose only legacy call has the unrecognized
severity token `critical`. -/
theorem C10_witness :
    containsSub OLD_INCLUDE "OPENAUTO_LOG(critical) << \"x\";".toList = false
  ∧ (scanPieces "OPENAUTO_LOG(critical) << \"x\";".toList).all pieceKeeps = true
  ∧ hasCallB "OPENAUTO_LOG(critical) << \"x\";".toList = true
  ∧ (migrate "main.cpp".toList "OPENAUTO_LOG(critical) << \"x\";".toList
        = "OPENAUTO_LOG(critical) << \"x\";".toList
    ∧ process_file_modified "OPENAUTO_LOG(critical) << \"x\";".toList = true) :=
  ⟨by decide, by decide, by decide,
   C10_modified_flag "main.cpp".toList _ (by decide) (by decide) (by decide)⟩
